import Mathlib

/-!
Verification of the hybrid-voice-satellite protocol core.

Shallow embedding of the server code in `src/server/wyoming_server.py` and
`src/server/websocket_server.py`: the hub-side framing loop, the TTS audio
relay, the broadcast fan-outs, the `describe`/`info` handshake mirror, the
`audio-stop` acknowledgment, and the client-side authentication gate.
Bytes are modelled as `Nat` values, connection identities as `Nat` ids, and
the outcome of each asynchronous step as an explicit result value.
-/

namespace HybridVoiceSatellite

/-! ### Binary payload step (wyoming_server.py, handle_client lines 219-227) -/

/-- Result of the fixed-length payload read inside one loop iteration of
`WyomingServer.handle_client`: either the message assembly continues with an
optional payload and the remaining stream, or the handler returns, closing
only this connection. -/
inductive PayloadResult where
  | ok (payload : Option (List Nat)) (rest : List Nat)
  | closeConnection
  deriving DecidableEq

/-- Embeds the binary-payload step of `WyomingServer.handle_client`
(lines 219-227): if the decoded header carries a truthy `payload_length`,
`reader.readexactly` consumes exactly that many raw bytes; an
`asyncio.IncompleteReadError` makes the handler `return`, which closes only
this connection.  Python's `if payload_length:` is false for `None` and `0`,
so those cases read nothing. -/
def readPayloadStep (payload_length : Option Nat) (stream : List Nat) : PayloadResult :=
  match payload_length with
  | none => .ok none stream
  | some L =>
    if L = 0 then .ok none stream
    else if L ≤ stream.length then .ok (some (stream.take L)) (stream.drop L)
    else .closeConnection

/-! ### Hex fallback for audio chunks (wyoming_server.py, lines 315-326 and 231-236) -/

/-- Value of one hexadecimal digit, as accepted by Python's `bytes.fromhex`. -/
def hexDigit (c : Char) : Option Nat :=
  if '0' ≤ c ∧ c ≤ '9' then some (c.toNat - '0'.toNat)
  else if 'a' ≤ c ∧ c ≤ 'f' then some (c.toNat - 'a'.toNat + 10)
  else if 'A' ≤ c ∧ c ≤ 'F' then some (c.toNat - 'A'.toNat + 10)
  else none

/-- The ASCII whitespace characters `bytes.fromhex` skips between byte pairs
(Python 3.7 and later): space, tab, newline, vertical tab, form feed,
carriage return. -/
def isAsciiSpace (c : Char) : Bool :=
  c == ' ' || c == '\t' || c == '\n' || c == '\x0b' || c == '\x0c' || c == '\r'

/-- Embeds Python's `bytes.fromhex` (3.7 and later): two hexadecimal digits
per byte, any ASCII whitespace skipped between byte pairs, any other
character — including whitespace splitting a pair, or a trailing odd
digit — raises `ValueError`, modelled as `none`. -/
def fromhex : List Char → Option (List Nat)
  | [] => some []
  | c1 :: rest =>
    if isAsciiSpace c1 then fromhex rest
    else
      match rest with
      | c2 :: rest2 =>
        match hexDigit c1, hexDigit c2 with
        | some h, some l => (fromhex rest2).map (fun bs => (16 * h + l) :: bs)
        | _, _ => none
      | [] => none

/-- Outcome of processing one `audio`/`audio-chunk` message: the extracted
bytes are forwarded to the TTS callback, or the chunk is silently skipped,
or an exception escapes `handle_message` and the enclosing
`except Exception` in `handle_client` (lines 234-236) returns, closing the
connection. -/
inductive AudioChunkResult where
  | forwarded (bytes : List Nat)
  | skipped
  | closeConnection
  deriving DecidableEq

/-- The hex fallback inside the `audio`/`audio-chunk` branch: a truthy
(non-empty) `data` field is decoded with `bytes.fromhex` and forwarded when
non-empty; a falsy or absent field skips the chunk; a decode error
propagates out of `handle_message` into `handle_client`, whose generic
`except Exception` handler returns and closes the connection. -/
def hexFallback (dataField : Option (List Char)) : AudioChunkResult :=
  match dataField with
  | none => .skipped
  | some s =>
    if s.isEmpty then .skipped
    else
      match fromhex s with
      | some bs2 => if bs2.isEmpty then .skipped else .forwarded bs2
      | none => .closeConnection

/-- Embeds the `audio`/`audio-chunk` branch of `WyomingServer.handle_message`
(lines 315-326): prefer the binary `payload`; if it is absent or empty, fall
back to the hex-encoded `data` field. -/
def handleAudioChunk (payload : Option (List Nat)) (dataField : Option (List Char)) :
    AudioChunkResult :=
  match payload with
  | some bs => if bs.isEmpty then hexFallback dataField else .forwarded bs
  | none => hexFallback dataField

/-! ### TTS forwarding to clients (websocket_server.py, lines 37-41 and 201-209) -/

/-- The fixed sample rate of the client microphone path,
`AudioBuffer(sample_rate=16000)` in `WebSocketServer.__init__`. -/
def clientTargetRate : Nat := 16000

/-- Embeds `WebSocketServer.broadcast_audio`: the TTS bytes received from the
hub are sent verbatim, as one binary frame, to every registered client. -/
def broadcast_audio (clients : List Nat) (audio_data : List Nat) :
    List (Nat × List Nat) :=
  clients.map (fun c => (c, audio_data))

/-- Embeds `WebSocketServer.broadcast_audio_start`: every registered client is
told the declared sample rate of the incoming TTS stream. -/
def broadcast_audio_start (clients : List Nat) (rate : Nat) : List (Nat × Nat) :=
  clients.map (fun c => (c, rate))

/-- An `audio`/`audio-chunk` message as seen by `handle_message`: the sample
rate declared for the TTS stream, the optional binary payload, and the
optional hex fallback field. -/
structure AudioChunkMsg where
  rate : Option Nat
  payload : Option (List Nat)
  dataHex : Option (List Char)

/-- Embeds the hub-to-client TTS chunk path: `WyomingServer.handle_message`
extracts the chunk bytes and calls `on_tts_audio`, which
`WebSocketServer.__init__` binds to `broadcast_audio`; the bytes are passed
through unchanged (the comment in the source reads "Pass-through: Send raw
bytes to client immediately") and the declared rate is not consulted.
Returns the (client, bytes) frames sent. -/
def handle_tts_chunk (msg : AudioChunkMsg) (clients : List Nat) :
    List (Nat × List Nat) :=
  match handleAudioChunk msg.payload msg.dataHex with
  | .forwarded bs => broadcast_audio clients bs
  | _ => []

/-! ### Hub broadcasts (wyoming_server.py, lines 342-387) -/

/-- Embeds the loop of `WyomingServer.send_audio` (lines 358-367): iterate
over a snapshot `list(self.ha_writers)`; a failed send is logged and the
writer is discarded from `self.ha_writers`.  `sendOk w` tells whether the
send to writer `w` succeeds.  Returns (writers that received the message,
registry after the loop). -/
def send_audio_loop (sendOk : Nat → Bool) : List Nat → List Nat → List Nat × List Nat
  | [], registry => ([], registry)
  | w :: ws, registry =>
    if sendOk w then
      let r := send_audio_loop sendOk ws registry
      (w :: r.1, r.2)
    else
      send_audio_loop sendOk ws (registry.erase w)

/-- `WyomingServer.send_audio` run against registry `ha_writers`. -/
def send_audio_broadcast (sendOk : Nat → Bool) (ha_writers : List Nat) :
    List Nat × List Nat :=
  send_audio_loop sendOk ha_writers ha_writers

/-- Embeds the loop of `WyomingServer.send_wake_word_detected`
(lines 383-387): iterate over a snapshot; a failed send hits
`except Exception: pass`, so the writer is NOT removed from the registry.
Returns the writers that received the message. -/
def send_wake_loop (sendOk : Nat → Bool) : List Nat → List Nat
  | [] => []
  | w :: ws => if sendOk w then w :: send_wake_loop sendOk ws else send_wake_loop sendOk ws

/-- `WyomingServer.send_wake_word_detected` run against registry
`ha_writers`: (writers that received the message, registry afterward —
unchanged, because the per-writer handler is `pass`). -/
def send_wake_word_detected (sendOk : Nat → Bool) (ha_writers : List Nat) :
    List Nat × List Nat :=
  (send_wake_loop sendOk ha_writers, ha_writers)

/-- The `run-pipeline` payload built in `send_wake_word_detected`
(lines 374-381). -/
structure RunPipelineData where
  start_stage : String
  end_stage : String
  restart_on_end : Bool
  deriving DecidableEq

/-- A `run-pipeline` message as sent to a hub writer. -/
structure RunPipelineMessage where
  type : String
  data : RunPipelineData
  deriving DecidableEq

/-- The exact message `send_wake_word_detected` sends to every writer. -/
def pipelineMessage : RunPipelineMessage :=
  { type := "run-pipeline"
    data := { start_stage := "asr", end_stage := "tts", restart_on_end := false } }

/-- The (writer, message) deliveries of one `send_wake_word_detected` call. -/
def wake_broadcast_events (sendOk : Nat → Bool) (ha_writers : List Nat) :
    List (Nat × RunPipelineMessage) :=
  (send_wake_word_detected sendOk ha_writers).1.map (fun w => (w, pipelineMessage))

/-- Embeds the hub-side effect of `WebSocketServer.handle_control_message`
(lines 165-186): a `wake_detected` control message triggers
`wyoming_server.send_wake_word_detected()`; `ping` and `status_request` are
answered on the client socket and reach no hub writer. -/
def handle_control_message (msgType : String) (sendOk : Nat → Bool)
    (ha_writers : List Nat) : List (Nat × RunPipelineMessage) :=
  if msgType = "wake_detected" then wake_broadcast_events sendOk ha_writers else []

/-! ### Handshake and describe/info (wyoming_server.py, lines 128-148 and 267-300) -/

/-- The `attribution` object used in both the handshake and the info reply. -/
structure Attribution where
  name : String
  url : String
  deriving DecidableEq

/-- The `snd_format` object advertised to the hub. -/
structure SndFormat where
  rate : Nat
  width : Nat
  channels : Nat
  deriving DecidableEq

/-- The `satellite` handshake sent on connect (`handle_client`,
lines 128-148). -/
structure SatelliteHandshake where
  type : String
  name : String
  area : Option String
  description : String
  attribution : Attribution
  installed : Bool
  version : String
  capabilities : List String
  snd_format : SndFormat
  deriving DecidableEq

/-- The nested `satellite` object of the `info` reply. -/
structure SatelliteInfo where
  name : String
  area : Option String
  description : String
  attribution : Attribution
  installed : Bool
  version : String
  components : List String
  capabilities : List String
  snd_format : SndFormat
  deriving DecidableEq

/-- The `data` object of the `info` reply. -/
structure InfoData where
  nickname : String
  version : String
  attribution : Attribution
  installed : Bool
  satellite : SatelliteInfo
  deriving DecidableEq

/-- The `info` reply to a `describe` message. -/
structure InfoReply where
  type : String
  data : InfoData
  deriving DecidableEq

/-- The server identity consulted when building replies: `WyomingServer.name`
is the only server field either message reads. -/
structure ServerIdentity where
  name : String
  deriving DecidableEq

/-- Embeds the handshake dictionary of `WyomingServer.handle_client`
(lines 128-148), built from `self.name`. -/
def handshakeMessage (s : ServerIdentity) : SatelliteHandshake :=
  { type := "satellite"
    name := s.name
    area := none
    description := "Hybrid Voice Satellite"
    attribution :=
      { name := "Hybrid Voice Satellite"
        url := "https://github.com/emme/hybrid-voice-satellite" }
    installed := true
    version := "0.1.0"
    capabilities := ["wake_word", "audio_input", "audio_output"]
    snd_format := { rate := 22050, width := 2, channels := 1 } }

/-- Embeds the `describe` branch of `WyomingServer.handle_message`
(lines 267-300): the `info` dictionary literal, built from `self.name`. -/
def describeReply (s : ServerIdentity) : InfoReply :=
  { type := "info"
    data :=
      { nickname := s.name
        version := "0.1.0"
        attribution :=
          { name := "Hybrid Voice Satellite"
            url := "https://github.com/emme/hybrid-voice-satellite" }
        installed := true
        satellite :=
          { name := s.name
            area := some "Office"
            description := "Hybrid Voice Satellite"
            attribution :=
              { name := "Hybrid Voice Satellite"
                url := "https://github.com/emme/hybrid-voice-satellite" }
            installed := true
            version := "0.1.0"
            components := []
            capabilities := ["wake_word", "audio_input", "audio_output"]
            snd_format := { rate := 22050, width := 2, channels := 1 } } } }

/-- One `describe` dispatch: the branch reads `self.name` and sends the
reply; no server field is assigned, so the identity is returned unchanged. -/
def handleDescribe (s : ServerIdentity) : InfoReply × ServerIdentity :=
  (describeReply s, s)

/-! ### audio-stop acknowledgment (wyoming_server.py, lines 328-336) -/

/-- An observable event of the `audio-stop` branch, in program order: the
`on_tts_stop` callback firing, or a JSON message written to the same hub
writer the `audio-stop` arrived on. -/
inductive HubEvent where
  | ttsStopNotification
  | sent (msgType : String)
  deriving DecidableEq

/-- Embeds the `audio-stop` branch of `WyomingServer.handle_message`
(lines 328-336): if an `on_tts_stop` attribute exists it is awaited first,
then `{"type": "played"}` is sent to the same writer. -/
def handle_audio_stop (hasOnTtsStop : Bool) : List HubEvent :=
  (if hasOnTtsStop then [HubEvent.ttsStopNotification] else []) ++ [HubEvent.sent "played"]

/-! ### Client authentication (websocket_server.py, lines 121-146) -/

/-- What `websocket.recv()` inside `authenticate` yields within the 5-second
window: a timeout (`asyncio.wait_for` raises), a frame `json.loads` rejects,
or a parsed JSON object with its `type` and `token` fields. -/
inductive RecvOutcome where
  | timeout
  | invalidJson
  | jsonMsg (msgType : Option String) (token : Option String)
  deriving DecidableEq

/-- A reply sent to the client during authentication. -/
inductive AuthReply where
  | authOk
  | authFailed
  deriving DecidableEq

/-- Python's `if not self.auth_token:` — `None` and the empty string are both
falsy, i.e. no token is configured. -/
def tokenConfigured : Option String → Bool
  | none => false
  | some t => !t.isEmpty

/-- Embeds `WebSocketServer.authenticate` (lines 121-137): with no token
configured, return `True` without touching the socket; otherwise await one
message for up to 5 seconds, accept exactly `type == 'auth'` with the
matching token (replying `auth_ok`), reply `auth_failed` on a mismatching
object, and map any exception (timeout, bad JSON) to `False`.  Returns
(result, replies sent). -/
def authenticate (auth_token : Option String) (recv : RecvOutcome) :
    Bool × List AuthReply :=
  if tokenConfigured auth_token then
    match recv with
    | .timeout => (false, [])
    | .invalidJson => (false, [])
    | .jsonMsg t k =>
      if t = some "auth" ∧ k = auth_token then (true, [AuthReply.authOk])
      else (false, [AuthReply.authFailed])
  else (true, [])

/-- Outcome of the accept phase of `WebSocketServer.handler`. -/
structure HandlerResult where
  closeCode : Option Nat
  registered : Bool
  authReplies : List AuthReply
  deriving DecidableEq

/-- Embeds the accept phase of `WebSocketServer.handler` (lines 139-146):
`if self.auth_token and not await self.authenticate(websocket)` —
short-circuit, so with no token configured `authenticate` is never called
and the client goes straight to `register_client`; a failed authentication
closes with code 1008 and returns before registration. -/
def handler_accept (auth_token : Option String) (recv : RecvOutcome) : HandlerResult :=
  if tokenConfigured auth_token then
    if (authenticate auth_token recv).1 then
      { closeCode := none, registered := true
        authReplies := (authenticate auth_token recv).2 }
    else
      { closeCode := some 1008, registered := false
        authReplies := (authenticate auth_token recv).2 }
  else { closeCode := none, registered := true, authReplies := [] }

/-! ### Multi-object header scanning (wyoming_server.py, handle_client lines 162-197)

The decoded line may hold several concatenated JSON headers with interspersed
noise.  The inner `while pos < len(decoded_line)` loop skips whitespace,
scans to the next `'{'`, and asks `json.JSONDecoder.raw_decode` for one
object starting there; a parse failure advances one byte.  `raw_decode` is
Python library code, so it enters the model as an oracle
`decode : Nat → Option (α × Nat)` giving, for each start position in the
fixed line, the parsed value and the end offset (or `none` on failure);
`isDict` models `isinstance(message, dict)`. -/

/-- Embeds the whitespace skip at lines 172-173:
`while pos < len(decoded_line) and decoded_line[pos].isspace(): pos += 1`. -/
def skipWs (s : List Char) (pos : Nat) : Nat :=
  if h : pos < s.length then
    if (s[pos]).isWhitespace then skipWs s (pos + 1) else pos
  else pos
termination_by s.length - pos

/-- Embeds `decoded_line.find('{', pos)` at line 180: the least index at or
after `pos` holding `'{'`, or `none` (Python's `-1`). -/
def findBrace (s : List Char) (pos : Nat) : Option Nat :=
  if h : pos < s.length then
    if s[pos] = '{' then some pos else findBrace s (pos + 1)
  else none
termination_by s.length - pos

/-- Embeds the scanning loop at lines 170-229, fuel-bounded: skip whitespace,
break at end of line, scan to the next `'{'` (break if none), attempt
`raw_decode` there; on success dispatch the value (dict values only, per the
`isinstance` check at line 195) and resume at the end offset, on failure
advance one byte and retry.  Returns the values passed to `handle_message`,
in order. -/
def scanLoop {α : Type} (decode : Nat → Option (α × Nat)) (isDict : α → Bool)
    (s : List Char) : Nat → Nat → List α
  | _, 0 => []
  | pos, fuel + 1 =>
    if pos < s.length then
      let q := skipWs s pos
      if q < s.length then
        match (if s[q]? = some '{' then some q else findBrace s q) with
        | none => []
        | some r =>
          match decode r with
          | some (m, idx) =>
            (if isDict m then [m] else []) ++ scanLoop decode isDict s idx fuel
          | none => scanLoop decode isDict s (r + 1) fuel
      else []
    else []

/-- One decoded line run through the scanning loop from position 0.  The fuel
`s.length + 1` is enough for any line: each dispatched object consumes at
least one character. -/
def decodeLine {α : Type} (decode : Nat → Option (α × Nat)) (isDict : α → Bool)
    (s : List Char) : List α :=
  scanLoop decode isDict s 0 (s.length + 1)

/-- The input class of claim C2: the line decomposes, from position `p` on,
into well-formed header objects separated by noise that contains no `'{'`.
`Segmented decode isDict s p ms` says the region `[p, s.length)` consists of
spans `[a, b)` — each starting with `'{'`, successfully parsed by the oracle
into a dict value — in order, with only brace-free noise between, before and
after them, and that `ms` lists the span values in order. -/
inductive Segmented {α : Type} (decode : Nat → Option (α × Nat)) (isDict : α → Bool)
    (s : List Char) : Nat → List α → Prop where
  | nil (p : Nat)
      (hnoise : ∀ q, p ≤ q → q < s.length → s[q]? ≠ some '{') :
      Segmented decode isDict s p []
  | cons (p a b : Nat) (m : α) (ms : List α)
      (hpa : p ≤ a) (hab : a < b) (hbs : b ≤ s.length)
      (hnoise : ∀ q, p ≤ q → q < a → s[q]? ≠ some '{')
      (hbrace : s[a]? = some '{')
      (hdec : decode a = some (m, b))
      (hdict : isDict m = true)
      (htail : Segmented decode isDict s b ms) :
      Segmented decode isDict s p (m :: ms)

/-! ### Lemmas about the scanning loop -/

theorem skipWs_ge (s : List Char) (p : Nat) : p ≤ skipWs s p := by
  rw [skipWs]
  split
  next h =>
    split
    next hws =>
      have ih := skipWs_ge s (p + 1)
      omega
    next hws => exact Nat.le_refl p
  next h => exact Nat.le_refl p
termination_by s.length - p

theorem skipWs_le (s : List Char) (p a : Nat) (c : Char) (hpa : p ≤ a)
    (ha : s[a]? = some c) (hc : c.isWhitespace = false) : skipWs s p ≤ a := by
  rw [skipWs]
  split
  next h =>
    split
    next hws =>
      have hne : p ≠ a := by
        intro he
        subst he
        rw [List.getElem?_eq_getElem h] at ha
        rw [Option.some.injEq] at ha
        rw [ha] at hws
        rw [hws] at hc
        exact Bool.noConfusion hc
      exact skipWs_le s (p + 1) a c (by omega) ha hc
    next hws => exact hpa
  next h => exact hpa
termination_by s.length - p

theorem findBrace_spec (s : List Char) (q a : Nat) (hqa : q ≤ a)
    (ha : s[a]? = some '{')
    (hnoise : ∀ j, q ≤ j → j < a → s[j]? ≠ some '{') :
    findBrace s q = some a := by
  have hlt : a < s.length := by
    by_contra hge
    rw [List.getElem?_eq_none (by omega)] at ha
    exact Option.noConfusion ha
  rw [findBrace]
  split
  next h =>
    split
    next hbr =>
      have : q = a := by
        by_contra hne
        exact hnoise q (Nat.le_refl q) (by omega)
          (by rw [List.getElem?_eq_getElem h, hbr])
      rw [this]
    next hbr =>
      have hne : q ≠ a := by
        intro he
        subst he
        rw [List.getElem?_eq_getElem h] at ha
        exact hbr (Option.some.inj ha)
      exact findBrace_spec s (q + 1) a (by omega) ha
        (fun j h1 h2 => hnoise j (by omega) h2)
  next h => omega
termination_by s.length - q

theorem findBrace_none (s : List Char) (q : Nat)
    (hnoise : ∀ j, q ≤ j → j < s.length → s[j]? ≠ some '{') :
    findBrace s q = none := by
  rw [findBrace]
  split
  next h =>
    split
    next hbr =>
      exact absurd (by rw [List.getElem?_eq_getElem h, hbr])
        (hnoise q (Nat.le_refl q) h)
    next hbr =>
      exact findBrace_none s (q + 1) (fun j h1 h2 => hnoise j (by omega) h2)
  next h => rfl
termination_by s.length - q

theorem scanLoop_of_segmented {α : Type} (decode : Nat → Option (α × Nat))
    (isDict : α → Bool) (s : List Char) (p : Nat) (ms : List α)
    (hseg : Segmented decode isDict s p ms) :
    ∀ fuel, ms.length < fuel → scanLoop decode isDict s p fuel = ms := by
  induction hseg with
  | nil p hnoise =>
    intro fuel hfuel
    obtain ⟨fuel, rfl⟩ : ∃ f, fuel = f + 1 := ⟨fuel - 1, by omega⟩
    simp only [scanLoop]
    by_cases hp : p < s.length
    · rw [if_pos hp]
      by_cases hq : skipWs s p < s.length
      · rw [if_pos hq]
        have h1 : ¬ s[skipWs s p]? = some '{' := hnoise _ (skipWs_ge s p) hq
        rw [if_neg h1]
        rw [findBrace_none s _
          (fun j hj1 hj2 => hnoise j (Nat.le_trans (skipWs_ge s p) hj1) hj2)]
      · rw [if_neg hq]
    · rw [if_neg hp]
  | cons p a b m ms hpa hab hbs hnoise hbrace hdec hdict htail ih =>
    intro fuel hfuel
    obtain ⟨fuel, rfl⟩ : ∃ f, fuel = f + 1 := ⟨fuel - 1, by omega⟩
    have hal : a < s.length := by omega
    have hp : p < s.length := by omega
    simp only [scanLoop]
    rw [if_pos hp]
    have hqa : skipWs s p ≤ a := skipWs_le s p a '{' hpa hbrace (by decide)
    have hq : skipWs s p < s.length := by omega
    rw [if_pos hq]
    have hr : (if s[skipWs s p]? = some '{' then some (skipWs s p)
        else findBrace s (skipWs s p)) = some a := by
      by_cases hc : s[skipWs s p]? = some '{'
      · rw [if_pos hc]
        have : skipWs s p = a := by
          by_contra hne
          exact hnoise _ (skipWs_ge s p) (by omega) hc
        rw [this]
      · rw [if_neg hc]
        exact findBrace_spec s _ a hqa hbrace
          (fun j hj1 hj2 => hnoise j (Nat.le_trans (skipWs_ge s p) hj1) hj2)
    rw [hr]
    simp only [hdec, hdict, if_true, List.singleton_append]
    have hms : ms.length < fuel := by
      simp only [List.length_cons] at hfuel
      omega
    rw [ih fuel hms]

theorem segmented_length_le {α : Type} {decode : Nat → Option (α × Nat)}
    {isDict : α → Bool} {s : List Char} {p : Nat} {ms : List α}
    (h : Segmented decode isDict s p ms) : ms.length ≤ s.length - p := by
  induction h with
  | nil p hnoise => simp
  | cons p a b m ms hpa hab hbs hnoise hbrace hdec hdict htail ih =>
    simp only [List.length_cons]
    omega

/-! ### Lemmas about the broadcast loops -/

theorem send_audio_loop_received (sendOk : Nat → Bool) (ws : List Nat) :
    ∀ reg, (send_audio_loop sendOk ws reg).1 = ws.filter sendOk := by
  induction ws with
  | nil => intro reg; rfl
  | cons w tl ih =>
    intro reg
    cases h : sendOk w <;> simp [send_audio_loop, h, ih]

theorem send_audio_loop_all_ok (sendOk : Nat → Bool) (ws : List Nat)
    (h : ∀ w ∈ ws, sendOk w = true) :
    ∀ reg, send_audio_loop sendOk ws reg = (ws, reg) := by
  induction ws with
  | nil => intro reg; rfl
  | cons w tl ih =>
    intro reg
    simp only [send_audio_loop, h w (List.mem_cons_self w tl), if_true]
    rw [ih (fun x hx => h x (List.mem_cons_of_mem w hx)) reg]

theorem send_audio_loop_registry (sendOk : Nat → Bool) (i : Nat) (ws : List Nat)
    (hnd : ws.Nodup) (hfail : ∀ w ∈ ws, (sendOk w = false ↔ w = i)) :
    ∀ reg, (send_audio_loop sendOk ws reg).2 = if i ∈ ws then reg.erase i else reg := by
  induction ws with
  | nil => intro reg; simp [send_audio_loop]
  | cons w tl ih =>
    intro reg
    rw [List.nodup_cons] at hnd
    cases hw : sendOk w with
    | true =>
      have hwi : w ≠ i := by
        intro he
        rw [(hfail w (List.mem_cons_self w tl)).2 he] at hw
        exact Bool.noConfusion hw
      simp only [send_audio_loop, hw, if_true]
      rw [ih hnd.2 (fun x hx => hfail x (List.mem_cons_of_mem w hx)) reg]
      by_cases hi : i ∈ tl
      · rw [if_pos hi, if_pos (List.mem_cons_of_mem w hi)]
      · rw [if_neg hi, if_neg ?_]
        intro hmem
        rcases List.mem_cons.mp hmem with he | hi2
        · exact hwi he.symm
        · exact hi hi2
    | false =>
      have hwi : w = i := (hfail w (List.mem_cons_self w tl)).1 hw
      subst hwi
      simp only [send_audio_loop, hw, Bool.false_eq_true, if_false]
      have hok : ∀ x ∈ tl, sendOk x = true := by
        intro x hx
        cases hx2 : sendOk x with
        | true => rfl
        | false =>
          exact absurd ((hfail x (List.mem_cons_of_mem w hx)).1 hx2 ▸ hx) hnd.1
      rw [send_audio_loop_all_ok sendOk tl hok (reg.erase w)]
      rw [if_pos (List.mem_cons_self w tl)]

theorem send_wake_loop_received (sendOk : Nat → Bool) (ws : List Nat) :
    send_wake_loop sendOk ws = ws.filter sendOk := by
  induction ws with
  | nil => rfl
  | cons w tl ih =>
    cases h : sendOk w <;> simp [send_wake_loop, h, ih]

theorem send_wake_loop_all_ok (sendOk : Nat → Bool) (ws : List Nat)
    (h : ∀ w ∈ ws, sendOk w = true) : send_wake_loop sendOk ws = ws := by
  rw [send_wake_loop_received]
  exact List.filter_eq_self.mpr h

/-! ### Claim theorems -/

/-- C1 counterexample: a TTS `audio-chunk` declaring 22050 Hz — different
from the 16000 Hz client path rate — is forwarded to the registered client
as the original chunk bytes verbatim, refuting the claim that the forwarded
bytes are the polyphase-resampled chunk and "not the original chunk bytes
verbatim".  The declared rate is not consulted by the chunk path at all. -/
theorem C1_counterexample :
    (22050 : Nat) ≠ clientTargetRate ∧
    handle_tts_chunk
      { rate := some 22050, payload := some [1, 2, 3, 4], dataHex := none } [0]
      = [(0, [1, 2, 3, 4])] := by
  decide

/-- C1 (amended): every TTS audio chunk received from a hub connection is
forwarded to every registered client link as the original chunk bytes
verbatim, regardless of the declared sample rate; `resample_audio` exists in
the source but is not invoked on this path. -/
theorem C1_tts_chunk_pass_through (clients : List Nat) (bs : List Nat)
    (r : Option Nat) (h : bs ≠ []) :
    handle_tts_chunk { rate := r, payload := some bs, dataHex := none } clients
      = clients.map (fun c => (c, bs)) := by
  cases bs with
  | nil => exact absurd rfl h
  | cons b tl => rfl

/-- C1 witness: the pass-through theorem applied at a concrete chunk and two
registered clients. -/
theorem C1_witness :
    handle_tts_chunk { rate := some 22050, payload := some [9, 9], dataHex := none }
      [1, 2] = [(1, [9, 9]), (2, [9, 9])] :=
  C1_tts_chunk_pass_through [1, 2] [9, 9] (some 22050) (by decide)

/-- C2: for every input line that decomposes into N well-formed JSON header
objects — possibly concatenated without separators, with arbitrary
interspersed brace-free noise — the scanning loop of
`WyomingServer.handle_client` invokes message handling on exactly those N
objects in their original order; the noise is discarded and the loop
produces no close of the connection. -/
theorem C2_multi_header_decode {α : Type} (decode : Nat → Option (α × Nat))
    (isDict : α → Bool) (s : List Char) (ms : List α)
    (hseg : Segmented decode isDict s 0 ms) :
    decodeLine decode isDict s = ms := by
  have hlen := segmented_length_le hseg
  exact scanLoop_of_segmented decode isDict s 0 ms hseg (s.length + 1) (by omega)

/-- C2 witness: the line `ab{x}c{y}` with two header objects at positions
2..5 and 6..9 and noise `ab`, `c`, decoded in order. -/
theorem C2_witness :
    decodeLine
      (fun p => if p = 2 then some ((0 : Nat), 5)
        else if p = 6 then some (1, 9) else none)
      (fun _ => true)
      ['a', 'b', '{', 'x', '}', 'c', '{', 'y', '}'] = [0, 1] :=
  C2_multi_header_decode _ _ _ _
    (Segmented.cons 0 2 5 0 [1] (by omega) (by omega) (by decide)
      (by intro q h1 h2; interval_cases q <;> decide)
      (by decide) (by decide) rfl
      (Segmented.cons 5 6 9 1 [] (by omega) (by omega) (by decide)
        (by intro q h1 h2; interval_cases q; decide)
        (by decide) (by decide) rfl
        (Segmented.nil 9 (by
          intro q h1 h2
          have : q < 9 := by simpa using h2
          omega))))

/-- C3: when a decoded header carries `payload_length = L > 0`, exactly the
next L bytes of the stream are consumed verbatim as the raw payload,
whatever their content; an incomplete read makes the handler return,
closing only this connection. -/
theorem C3_payload_exact_read (L : Nat) (stream : List Nat) (hL : 0 < L) :
    (L ≤ stream.length →
      readPayloadStep (some L) stream
        = PayloadResult.ok (some (stream.take L)) (stream.drop L)) ∧
    (stream.length < L →
      readPayloadStep (some L) stream = PayloadResult.closeConnection) := by
  constructor
  · intro hle
    simp only [readPayloadStep]
    rw [if_neg (by omega), if_pos hle]
  · intro hlt
    simp only [readPayloadStep]
    rw [if_neg (by omega), if_neg (by omega)]

/-- C3 witness: a 2-byte payload containing a `'{'` byte (123) and a newline
byte (10) is consumed verbatim, leaving the rest of the stream. -/
theorem C3_witness :
    readPayloadStep (some 2) [123, 10, 125]
      = PayloadResult.ok (some [123, 10]) [125] :=
  (C3_payload_exact_read 2 [123, 10, 125] (by decide)).1 (by decide)

/-- C4 counterexample: an `audio-chunk` with no binary payload and the
non-hex fallback field `zz` does not skip the chunk with the connection kept
open — the `ValueError` from `bytes.fromhex` escapes to the generic handler
in `handle_client`, which closes the connection.  This refutes the claim
that a hex-decode failure of the fallback field is transient. -/
theorem C4_counterexample :
    handleAudioChunk none (some ['z', 'z']) = AudioChunkResult.closeConnection ∧
    handleAudioChunk none (some ['z', 'z']) ≠ AudioChunkResult.skipped := by
  decide

/-- C4 (amended): for an audio message with no binary payload, a hex-encoded
`data` field is an accepted fallback and its bytes are forwarded; but a
hex-decode failure of that field is fatal to the connection (the handler
returns and closes it), not a transient skipped-chunk error. -/
theorem C4_hex_fallback (cs : List Char) (bs : List Nat)
    (hs : fromhex cs = some bs) (hbs : bs ≠ []) :
    handleAudioChunk none (some cs) = AudioChunkResult.forwarded bs ∧
    (∀ t : List Char, fromhex t = none →
      handleAudioChunk none (some t) = AudioChunkResult.closeConnection) := by
  constructor
  · have hcs : cs.isEmpty = false := by
      cases cs with
      | nil =>
        rw [show fromhex [] = some [] from rfl] at hs
        exact absurd (Option.some.inj hs).symm hbs
      | cons c tl => rfl
    have hbse : bs.isEmpty = false := by
      cases bs with
      | nil => exact absurd rfl hbs
      | cons b tl => rfl
    simp [handleAudioChunk, hexFallback, hcs, hs, hbse]
  · intro t ht
    have hte : t.isEmpty = false := by
      cases t with
      | nil =>
        rw [show fromhex [] = some [] from rfl] at ht
        exact Option.noConfusion ht
      | cons c tl => rfl
    simp [handleAudioChunk, hexFallback, hte, ht]

/-- C4 witness: the fallback field consisting of a tab, the pair `61`, a
newline and the pair `0b` decodes — whitespace between pairs skipped, as
`bytes.fromhex` does — to bytes 97, 11, which are forwarded. -/
theorem C4_witness :
    handleAudioChunk none (some ['\t', '6', '1', '\n', '0', 'b'])
      = AudioChunkResult.forwarded [97, 11] :=
  (C4_hex_fallback ['\t', '6', '1', '\n', '0', 'b'] [97, 11]
    (by decide) (by decide)).1

/-- C5 counterexample: with hub links 1, 2, 3 registered and the send to
link 2 failing, the `run-pipeline` broadcast of `send_wake_word_detected`
delivers to links 1 and 3 but leaves link 2 in the registry (`except
Exception: pass` removes nothing), refuting the claim that the offending
link is removed after every broadcast. -/
theorem C5_counterexample :
    (send_wake_word_detected (fun w => w != 2) [1, 2, 3]).1 = [1, 3] ∧
    (send_wake_word_detected (fun w => w != 2) [1, 2, 3]).2 = [1, 2, 3] ∧
    2 ∈ (send_wake_word_detected (fun w => w != 2) [1, 2, 3]).2 := by
  decide

/-- C5 (amended): with K registered hub links and the send to link i
failing, each broadcast delivers to the remaining K−1 links and swallows
the per-link error; `send_audio` additionally removes link i from the
registry, while `send_wake_word_detected` leaves the registry — link i
included — unchanged. -/
theorem C5_broadcast_fanout (sendOk : Nat → Bool) (ws : List Nat) (i : Nat)
    (hnd : ws.Nodup) (hi : i ∈ ws)
    (hfail : ∀ w ∈ ws, (sendOk w = false ↔ w = i)) :
    (∀ w ∈ ws, w ≠ i → w ∈ (send_audio_broadcast sendOk ws).1) ∧
    i ∉ (send_audio_broadcast sendOk ws).1 ∧
    (send_audio_broadcast sendOk ws).2 = ws.erase i ∧
    (∀ w ∈ ws, w ≠ i → w ∈ (send_wake_word_detected sendOk ws).1) ∧
    i ∉ (send_wake_word_detected sendOk ws).1 ∧
    (send_wake_word_detected sendOk ws).2 = ws := by
  have hok : ∀ w ∈ ws, w ≠ i → sendOk w = true := by
    intro w hw hne
    cases h : sendOk w with
    | true => rfl
    | false => exact absurd ((hfail w hw).1 h) hne
  have hfi : sendOk i = false := (hfail i hi).2 rfl
  refine ⟨?_, ?_, ?_, ?_, ?_, rfl⟩
  · intro w hw hne
    unfold send_audio_broadcast
    rw [send_audio_loop_received]
    exact List.mem_filter.mpr ⟨hw, hok w hw hne⟩
  · unfold send_audio_broadcast
    rw [send_audio_loop_received]
    intro hmem
    have := (List.mem_filter.mp hmem).2
    rw [hfi] at this
    exact Bool.noConfusion this
  · unfold send_audio_broadcast
    rw [send_audio_loop_registry sendOk i ws hnd hfail ws, if_pos hi]
  · intro w hw hne
    unfold send_wake_word_detected
    rw [send_wake_loop_received]
    exact List.mem_filter.mpr ⟨hw, hok w hw hne⟩
  · unfold send_wake_word_detected
    rw [send_wake_loop_received]
    intro hmem
    have := (List.mem_filter.mp hmem).2
    rw [hfi] at this
    exact Bool.noConfusion this

/-- C5 witness: the fan-out theorem applied at links 1, 2, 3 with the send
to link 2 failing. -/
theorem C5_witness :
    1 ∈ (send_audio_broadcast (fun w => w != 2) [1, 2, 3]).1 ∧
    2 ∉ (send_audio_broadcast (fun w => w != 2) [1, 2, 3]).1 ∧
    (send_audio_broadcast (fun w => w != 2) [1, 2, 3]).2 = [1, 3] := by
  have h := C5_broadcast_fanout (fun w => w != 2) [1, 2, 3] 2
    (by decide) (by decide) (by decide)
  exact ⟨h.1 1 (by decide) (by decide), h.2.1, h.2.2.1⟩

/-- C6 counterexample: the `info` reply to `describe` does not mirror the
`area` field of the initial `satellite` handshake — the handshake sends
`area = None` while the `info` reply hardcodes `area = 'Office'`. -/
theorem C6_counterexample :
    (handshakeMessage { name := "hybrid-voice-satellite-v2" }).area = none ∧
    (describeReply { name := "hybrid-voice-satellite-v2" }).data.satellite.area
      = some "Office" ∧
    (describeReply { name := "hybrid-voice-satellite-v2" }).data.satellite.area
      ≠ (handshakeMessage { name := "hybrid-voice-satellite-v2" }).area := by
  refine ⟨rfl, rfl, ?_⟩
  decide

/-- C6 (amended): every `describe` message is answered with an `info` reply
whose satellite object mirrors the handshake's name, description,
attribution, installed, version, capabilities and snd_format — but not its
area (handshake `None`, reply `'Office'`); the dispatch mutates no server
identity, so repeated `describe` messages produce structurally identical
replies. -/
theorem C6_describe_mirror_idempotent (s : ServerIdentity) :
    ((handleDescribe s).1.type = "info" ∧
     (handleDescribe s).1.data.satellite.name = (handshakeMessage s).name ∧
     (handleDescribe s).1.data.satellite.description
       = (handshakeMessage s).description ∧
     (handleDescribe s).1.data.satellite.attribution
       = (handshakeMessage s).attribution ∧
     (handleDescribe s).1.data.satellite.installed
       = (handshakeMessage s).installed ∧
     (handleDescribe s).1.data.satellite.version = (handshakeMessage s).version ∧
     (handleDescribe s).1.data.satellite.capabilities
       = (handshakeMessage s).capabilities ∧
     (handleDescribe s).1.data.satellite.snd_format
       = (handshakeMessage s).snd_format) ∧
    ((handshakeMessage s).area = none ∧
     (handleDescribe s).1.data.satellite.area = some "Office") ∧
    ((handleDescribe s).2 = s ∧
     (handleDescribe (handleDescribe s).2).1 = (handleDescribe s).1) :=
  ⟨⟨rfl, rfl, rfl, rfl, rfl, rfl, rfl, rfl⟩, ⟨rfl, rfl⟩, rfl, rfl⟩

/-- C6 witness: the mirror/idempotence theorem applied at a concrete server
name. -/
theorem C6_witness :
    (handleDescribe { name := "sat" }).2 = { name := "sat" } ∧
    (handleDescribe { name := "sat" }).1.data.satellite.snd_format
      = (handshakeMessage { name := "sat" }).snd_format :=
  ⟨(C6_describe_mirror_idempotent { name := "sat" }).2.2.1,
   (C6_describe_mirror_idempotent { name := "sat" }).1.2.2.2.2.2.2.2⟩

/-- C7: when a client sends `wake_detected` and every send succeeds, each
hub connection registered at that moment receives exactly one `run-pipeline`
message whose data is exactly `start_stage = "asr"`, `end_stage = "tts"`,
`restart_on_end = false`. -/
theorem C7_wake_detected_broadcast (sendOk : Nat → Bool) (ws : List Nat)
    (hnd : ws.Nodup) (hok : ∀ w ∈ ws, sendOk w = true)
    (w : Nat) (hw : w ∈ ws) :
    ((handle_control_message "wake_detected" sendOk ws).map Prod.fst).count w = 1 ∧
    (∀ e ∈ handle_control_message "wake_detected" sendOk ws, e.2 = pipelineMessage) ∧
    pipelineMessage.type = "run-pipeline" ∧
    pipelineMessage.data
      = { start_stage := "asr", end_stage := "tts", restart_on_end := false } := by
  have hev : handle_control_message "wake_detected" sendOk ws
      = ws.map (fun x => (x, pipelineMessage)) := by
    unfold handle_control_message
    rw [if_pos rfl]
    unfold wake_broadcast_events send_wake_word_detected
    rw [send_wake_loop_all_ok sendOk ws hok]
  refine ⟨?_, ?_, rfl, rfl⟩
  · rw [hev, List.map_map]
    have hid : (Prod.fst ∘ fun x => (x, pipelineMessage)) = (id : Nat → Nat) := rfl
    rw [hid, List.map_id]
    exact List.count_eq_one_of_mem hnd hw
  · rw [hev]
    intro e he
    rcases List.mem_map.mp he with ⟨x, hx, rfl⟩
    rfl

/-- C7 witness: the broadcast theorem applied at registered hub links 5
and 7, all sends succeeding, observing link 5. -/
theorem C7_witness :
    ((handle_control_message "wake_detected" (fun _ => true) [5, 7]).map
      Prod.fst).count 5 = 1 :=
  (C7_wake_detected_broadcast (fun _ => true) [5, 7] (by decide)
    (fun w hw => rfl) 5 (by decide)).1

/-- C8: the `audio-stop` branch sends exactly one `played` reply on the same
connection, and it is the last event of the branch, i.e. it comes after the
TTS-stop notification whenever that callback exists and fires. -/
theorem C8_audio_stop_played (hasOnTtsStop : Bool) :
    (handle_audio_stop hasOnTtsStop).count (HubEvent.sent "played") = 1 ∧
    (handle_audio_stop hasOnTtsStop).getLast? = some (HubEvent.sent "played") := by
  cases hasOnTtsStop <;> exact ⟨by decide, by decide⟩

/-- C8 witness: the acknowledgment theorem applied with the `on_tts_stop`
attribute absent, as in the deployed wiring. -/
theorem C8_witness :
    (handle_audio_stop false).count (HubEvent.sent "played") = 1 ∧
    (handle_audio_stop false).getLast? = some (HubEvent.sent "played") :=
  C8_audio_stop_played false

/-- C9: with an auth token configured, a client whose single message window
yields no valid auth message — timeout, unparsable frame, or a JSON object
that is not `type = "auth"` with the matching token — is closed with policy
violation code 1008 and is never registered into the client set. -/
theorem C9_auth_gate (tok : String) (recv : RecvOutcome)
    (htok : tok.isEmpty = false)
    (hbad : ∀ t k, recv = RecvOutcome.jsonMsg t k →
      ¬(t = some "auth" ∧ k = some tok)) :
    handler_accept (some tok) recv
      = { closeCode := some 1008, registered := false
          authReplies := (authenticate (some tok) recv).2 } := by
  have hconf : tokenConfigured (some tok) = true := by
    simp [tokenConfigured, htok]
  have hfail : (authenticate (some tok) recv).1 = false := by
    cases recv with
    | timeout => simp [authenticate, hconf]
    | invalidJson => simp [authenticate, hconf]
    | jsonMsg t k =>
      simp only [authenticate, hconf, if_true]
      rw [if_neg (hbad t k rfl)]
  unfold handler_accept
  rw [if_pos hconf, if_neg (by rw [hfail]; exact fun he => Bool.noConfusion he)]

/-- C9 witness: the gate theorem applied at token `secret` and a client that
sends nothing within the 5-second window. -/
theorem C9_witness :
    handler_accept (some "secret") RecvOutcome.timeout
      = { closeCode := some 1008, registered := false, authReplies := [] } :=
  C9_auth_gate "secret" RecvOutcome.timeout (by decide) (fun t k h => nomatch h)

/-- C10: with no auth token configured (None or the empty string), every
client connection is accepted immediately: `authenticate` returns true
without consulting the received message, no auth reply is sent, and the
client is registered directly into the active relay state. -/
theorem C10_no_token_accept (auth_token : Option String) (recv : RecvOutcome)
    (h : tokenConfigured auth_token = false) :
    handler_accept auth_token recv
      = { closeCode := none, registered := true, authReplies := [] } ∧
    authenticate auth_token recv = (true, []) := by
  constructor
  · unfold handler_accept
    rw [if_neg (by rw [h]; exact fun he => Bool.noConfusion he)]
  · unfold authenticate
    rw [if_neg (by rw [h]; exact fun he => Bool.noConfusion he)]

/-- C10 witness: the acceptance theorem applied with no token configured. -/
theorem C10_witness :
    handler_accept none RecvOutcome.timeout
      = { closeCode := none, registered := true, authReplies := [] } ∧
    authenticate none RecvOutcome.timeout = (true, []) :=
  C10_no_token_accept none RecvOutcome.timeout rfl

end HybridVoiceSatellite
